import Mathlib

/-!
Verification of the Environment Lifecycle Orchestrator of ComfyDock-Pinokio.

The Python sources `src/app.py`, `src/utils/docker_utils.py` and
`src/utils/environment_manager.py` are shallowly embedded below:
pure data manipulation becomes Lean functions, the container engine and host
filesystem become explicit state values threaded through the functions, and
fallible paths return explicit outcome values.

Conventions used throughout:
* host filesystem paths are `PyPath` values (absolute flag + components),
  mirroring `pathlib.Path`; the set of directories that exist on the host is a
  `List PyPath`;
* Python dict lookups with a default (`d.get(k, v)`) become `Option` fields
  read with `getD`;
* the Docker image tag table is an association list `tag ↦ image id`;
* calls into the container engine that may fail are driven by explicit
  booleans / oracle functions supplied as arguments.
-/

/-- Characters accepted by Python's `\s` on the ASCII range (the manifest
filtering regex `^\s*([a-zA-Z0-9\-_]+)` in `install_custom_nodes`). -/
def isPySpace (c : Char) : Bool :=
  c = ' ' || c = '\t' || c = '\n' || c = '\r' || c = '\x0b' || c = '\x0c'

/-- Characters of the class `[a-zA-Z0-9\-_]` in the manifest filtering regex. -/
def isReqTokenChar (c : Char) : Bool :=
  c.isAlphanum || c = '-' || c = '_'

/-- `re.match(r'^\s*([a-zA-Z0-9\-_]+)', line)`: the leading package token of a
requirements line — the maximal leading run of `[a-zA-Z0-9\-_]` after optional
whitespace; `none` when the regex does not match (no token character there). -/
def leadingToken (line : String) : Option String :=
  let rest := line.toList.dropWhile isPySpace
  let tok := rest.takeWhile isReqTokenChar
  if tok.isEmpty then none else some (String.mk tok)

/-- `BLACKLIST_REQUIREMENTS` from `src/utils/docker_utils.py`. -/
def BLACKLIST_REQUIREMENTS : List String := ["torch"]

/-- `EXCLUDE_CUSTOM_NODE_DIRS` from `src/utils/docker_utils.py`. -/
def EXCLUDE_CUSTOM_NODE_DIRS : List String := ["__pycache__", "ComfyUI-Manager"]

/-- The requirements-filtering loop of `install_custom_nodes`
(`src/utils/docker_utils.py` lines 359-369): a line whose leading package token
matches the regex and is in the blacklist is skipped, every other line is
appended unchanged. -/
def filterRequirements (blacklist : List String) (lines : List String) :
    List String :=
  lines.foldl
    (fun acc line =>
      match leadingToken line with
      | some t => if blacklist.contains t then acc else acc ++ [line]
      | none => acc ++ [line])
    []

/-- The predicate under which `install_custom_nodes` keeps a manifest line. -/
def keepsLine (blacklist : List String) (line : String) : Bool :=
  match leadingToken line with
  | some t => !blacklist.contains t
  | none => true

theorem filterRequirements_step (blacklist : List String) (acc : List String)
    (line : String) :
    (match leadingToken line with
     | some t => if blacklist.contains t then acc else acc ++ [line]
     | none => acc ++ [line]) =
      if keepsLine blacklist line then acc ++ [line] else acc := by
  unfold keepsLine
  cases leadingToken line with
  | none => simp
  | some t =>
    by_cases hb : blacklist.contains t = true
    · simp [hb]
    · simp [hb]

theorem filterRequirements_go (blacklist : List String) (lines : List String)
    (acc : List String) :
    lines.foldl
      (fun acc line =>
        match leadingToken line with
        | some t => if blacklist.contains t then acc else acc ++ [line]
        | none => acc ++ [line])
      acc = acc ++ lines.filter (keepsLine blacklist) := by
  induction lines generalizing acc with
  | nil => simp
  | cons l rest ih =>
    simp only [List.foldl_cons, List.filter_cons]
    rw [filterRequirements_step]
    by_cases hk : keepsLine blacklist l = true
    · rw [if_pos hk, if_pos hk, ih, List.append_assoc, List.singleton_append]
    · rw [if_neg hk, if_neg hk, ih]

/-! ## Path model (`pathlib.Path`) -/

/-- A `pathlib` path: absolute flag plus components.  `resolve()` is modelled
as the identity (the embedded inputs carry no `..`/`.` components and the
relative-path case is resolved by explicit joining before any `resolve`). -/
structure PyPath where
  abs : Bool
  comps : List String
deriving DecidableEq, Repr

/-- Split a character list on `'/'` (accumulator holds the current component
reversed). -/
def splitSlash : List Char → List Char → List String
  | [], cur => [String.mk cur.reverse]
  | c :: rest, cur =>
    if c = '/' then String.mk cur.reverse :: splitSlash rest []
    else splitSlash rest (c :: cur)

/-- `Path(s)`: parse a string into a path. -/
def pathOfString (s : String) : PyPath :=
  { abs := match s.toList with
      | '/' :: _ => true
      | _ => false
    comps := (splitSlash s.toList []).filter (fun c => !c.isEmpty) }

/-- `a / b` on `pathlib` paths: an absolute right operand replaces the left. -/
def PyPath.join (a b : PyPath) : PyPath :=
  if b.abs then b else { abs := a.abs, comps := a.comps ++ b.comps }

/-- `Path.as_posix()`. -/
def PyPath.asPosix (p : PyPath) : String :=
  if p.abs then "/" ++ String.intercalate "/" p.comps
  else if p.comps.isEmpty then "." else String.intercalate "/" p.comps

/-- All prefixes of a path (root and the path itself included): the
directories that `mkdir(parents=True)` guarantees to exist. -/
def PyPath.selfAndAncestors (p : PyPath) : List PyPath :=
  (List.range (p.comps.length + 1)).map (fun n => ⟨p.abs, p.comps.take n⟩)

/-- The host filesystem: the set of directories that exist. -/
def dirExists (fs : List PyPath) (p : PyPath) : Bool := fs.contains p

/-- `p.mkdir(parents=True, exist_ok=True)`: afterwards `p` and all its
ancestors exist. -/
def mkdirParents (fs : List PyPath) (p : PyPath) : List PyPath :=
  fs ++ p.selfAndAncestors

/-- Executable substring test (Python's `in` on strings), on char lists. -/
def listContainsSub (hay pat : List Char) : Bool :=
  match hay with
  | [] => pat.isEmpty
  | _ :: t => pat.isPrefixOf hay || listContainsSub t pat

/-- Python's `pat in s` substring test. -/
def strContains (s pat : String) : Bool :=
  listContainsSub s.toList pat.toList

/-! ## `src/utils/docker_utils.py`: mount configuration -/

/-- `CONTAINER_COMFYUI_PATH = "/app/ComfyUI"`. -/
def CONTAINER_COMFYUI_PATH : PyPath := ⟨true, ["app", "ComfyUI"]⟩

/-- One entry of a new-style `mount_config["mounts"]` list.  String fields
model the JSON dict values; an absent or `None` key is modelled by `""`
(both are falsy under the code's `if not container_path or not host_path`
checks, and `m.get("type", "")` defaults to `""`). -/
structure MountEntry where
  mtype : String
  container_path : String
  host_path : String
  read_only : Bool
deriving DecidableEq, Repr

/-- A resolved Docker bind-mount descriptor (`docker.types.Mount`). -/
structure DMount where
  target : String
  source : String
  dtype : String
  read_only : Bool
deriving DecidableEq, Repr

/-- `convert_old_to_new_style(old_config, comfyui_path)`
(`src/utils/docker_utils.py` lines 160-209): each key whose action is
`"mount"` or `"copy"` becomes one new-style entry with host path
`comfyui_path / key` (resolved), container path `/app/ComfyUI/key`, type
`"mount"` and `read_only = False`; other actions are dropped. -/
def convert_old_to_new_style (old_config : List (String × String))
    (comfyui_path : PyPath) : List MountEntry :=
  old_config.foldl
    (fun acc kv =>
      if kv.2 ≠ "mount" ∧ kv.2 ≠ "copy" then acc
      else
        acc ++ [{ mtype := "mount"
                  container_path :=
                    (CONTAINER_COMFYUI_PATH.join (pathOfString kv.1)).asPosix
                  host_path := (comfyui_path.join (pathOfString kv.1)).asPosix
                  read_only := false }])
    []

/-- The new-style entry `convert_old_to_new_style` builds for a key. -/
def convertedEntry (comfyui_path : PyPath) (key : String) : MountEntry :=
  { mtype := "mount"
    container_path := (CONTAINER_COMFYUI_PATH.join (pathOfString key)).asPosix
    host_path := (comfyui_path.join (pathOfString key)).asPosix
    read_only := false }

theorem convert_go (old_config : List (String × String)) (comfyui_path : PyPath)
    (acc : List MountEntry) :
    old_config.foldl
      (fun acc kv =>
        if kv.2 ≠ "mount" ∧ kv.2 ≠ "copy" then acc
        else acc ++ [convertedEntry comfyui_path kv.1])
      acc =
      acc ++ ((old_config.filter
        (fun kv => kv.2 = "mount" || kv.2 = "copy")).map
          (fun kv => convertedEntry comfyui_path kv.1)) := by
  induction old_config generalizing acc with
  | nil => simp
  | cons kv rest ih =>
    simp only [List.foldl_cons, List.filter_cons]
    by_cases h1 : kv.2 = "mount"
    · simp [h1, ih, List.append_assoc]
    · by_cases h2 : kv.2 = "copy"
      · simp [h1, h2, ih, List.append_assoc]
      · simp [h1, h2, ih]

theorem convert_eq_map_filter (old_config : List (String × String))
    (comfyui_path : PyPath) :
    convert_old_to_new_style old_config comfyui_path =
      (old_config.filter (fun kv => kv.2 = "mount" || kv.2 = "copy")).map
        (fun kv => convertedEntry comfyui_path kv.1) := by
  have h := convert_go old_config comfyui_path []
  simpa [convert_old_to_new_style, convertedEntry] using h

/-- C9: dependency installation removes from a requirements manifest exactly
the lines whose leading package token (maximal leading run of alphanumerics,
hyphens and underscores after optional whitespace) equals a blacklisted name,
and preserves every other line verbatim and in order; in particular
blacklisting `"torch"` does not remove a `"torchvision"` line. -/
theorem install_custom_nodes_blacklist_filtering :
    (∀ (bl lines : List String),
      filterRequirements bl lines = lines.filter (keepsLine bl)) ∧
    (∀ (bl : List String) (l : String),
      keepsLine bl l = false ↔ ∃ t, leadingToken l = some t ∧ t ∈ bl) ∧
    (∀ (bl lines : List String), (filterRequirements bl lines).Sublist lines) ∧
    filterRequirements BLACKLIST_REQUIREMENTS
        ["torch==2.1.0", "  torch", "torchvision==0.16", "# note", "numpy"] =
      ["torchvision==0.16", "# note", "numpy"] := by
  have hmain : ∀ (bl lines : List String),
      filterRequirements bl lines = lines.filter (keepsLine bl) := by
    intro bl lines
    unfold filterRequirements
    simpa using filterRequirements_go bl lines []
  refine ⟨hmain, ?_, ?_, by decide⟩
  · intro bl l
    unfold keepsLine
    cases leadingToken l with
    | none => simp
    | some t => simp [List.contains]
  · intro bl lines
    rw [hmain]
    exact List.filter_sublist lines

/-- C10: converting a legacy mount specification to the current schema
produces one entry per key whose action is `"mount"` or `"copy"`, and every
produced entry has type `"mount"` and `read_only = false` — keys whose legacy
action was `"copy"` included — so the copy/mount distinction is lost. -/
theorem convert_old_to_new_style_erases_copy_distinction :
    (∀ (old_config : List (String × String)) (comfyui_path : PyPath),
      convert_old_to_new_style old_config comfyui_path =
        (old_config.filter (fun kv => kv.2 = "mount" || kv.2 = "copy")).map
          (fun kv => convertedEntry comfyui_path kv.1)) ∧
    (∀ (old_config : List (String × String)) (comfyui_path : PyPath),
      (convert_old_to_new_style old_config comfyui_path).length =
        (old_config.filter (fun kv => kv.2 = "mount" || kv.2 = "copy")).length) ∧
    (∀ (old_config : List (String × String)) (comfyui_path : PyPath),
      ∀ e ∈ convert_old_to_new_style old_config comfyui_path,
        e.mtype = "mount" ∧ e.read_only = false) ∧
    convert_old_to_new_style
        [("custom_nodes", "copy"), ("models", "mount"), ("junk", "other")]
        ⟨true, ["home", "u", "ComfyUI"]⟩ =
      [{ mtype := "mount", container_path := "/app/ComfyUI/custom_nodes",
         host_path := "/home/u/ComfyUI/custom_nodes", read_only := false },
       { mtype := "mount", container_path := "/app/ComfyUI/models",
         host_path := "/home/u/ComfyUI/models", read_only := false }] := by
  refine ⟨convert_eq_map_filter, ?_, ?_, by decide⟩
  · intro old_config comfyui_path
    rw [convert_eq_map_filter]
    simp
  · intro old_config comfyui_path e he
    rw [convert_eq_map_filter] at he
    rcases List.mem_map.mp he with ⟨kv, _, rfl⟩
    exact ⟨rfl, rfl⟩

/-- Python's `str.lower()` (ASCII model). -/
def strLower (s : String) : String := String.mk (s.toList.map Char.toLower)

/-- `/usr/lib/wsl`, the host shared-library pass-through path. -/
def wslPath : PyPath := ⟨true, ["usr", "lib", "wsl"]⟩

/-- Resolution of an entry's `host_path`: relative paths are joined onto
`comfyui_path` (`source_path = comfyui_path / source_path` when relative,
then `resolve()`, modelled as the identity). -/
def resolvedHostPath (comfyui_path : PyPath) (host_path : String) : PyPath :=
  let sp := pathOfString host_path
  if sp.abs then sp else comfyui_path.join sp

/-- One iteration of the `for m in user_mounts` loop of
`_create_mounts_from_new_config` (`src/utils/docker_utils.py` lines 419-461):
skip unless the lowercased type is `"mount"` or `"copy"`; skip when either
path is falsy; otherwise resolve the host path, create the host directory
(with parents) when it does not exist, and append a bind `Mount` descriptor
with the entry's `read_only` flag. -/
def createMountsStep (comfyui_path : PyPath)
    (st : List DMount × List PyPath) (m : MountEntry) :
    List DMount × List PyPath :=
  let action := strLower m.mtype
  if action ≠ "mount" ∧ action ≠ "copy" then st
  else if m.container_path.isEmpty ∨ m.host_path.isEmpty then st
  else
    let source_path := resolvedHostPath comfyui_path m.host_path
    let fs' := if dirExists st.2 source_path then st.2
               else mkdirParents st.2 source_path
    (st.1 ++ [{ target := (pathOfString m.container_path).asPosix
                source := source_path.asPosix
                dtype := "bind"
                read_only := m.read_only }], fs')

/-- `_create_mounts_from_new_config(mount_config, comfyui_path)`
(`src/utils/docker_utils.py` lines 398-475), over an explicit host
filesystem: returns the produced descriptor list and the filesystem after
the directory-creation side effects; the loop is followed by the optional
read-only `/usr/lib/wsl` pass-through descriptor. -/
def _create_mounts_from_new_config (entries : List MountEntry)
    (comfyui_path : PyPath) (fs : List PyPath) :
    List DMount × List PyPath :=
  let st := entries.foldl (createMountsStep comfyui_path) ([], fs)
  if dirExists st.2 wslPath then
    (st.1 ++ [{ target := "/usr/lib/wsl", source := wslPath.asPosix
                dtype := "bind", read_only := true }], st.2)
  else st

/-- `_process_copy_mount(mount, comfyui_path, container_id)`
(`src/utils/docker_utils.py` lines 212-236): skip when either path is falsy;
when the resolved host directory exists, copy it into the container and —
when the container path mentions `custom_nodes` — install dependencies and
return `True`; when the host directory is missing, only log and return
`False`.  The filesystem is returned unchanged: this function never creates
a directory. -/
def _process_copy_mount (m : MountEntry) (comfyui_path : PyPath)
    (fs : List PyPath) : Bool × List PyPath :=
  if m.host_path.isEmpty ∨ m.container_path.isEmpty then (false, fs)
  else
    let source_path := resolvedHostPath comfyui_path m.host_path
    if dirExists fs source_path then
      if strContains m.container_path "custom_nodes" then (true, fs)
      else (false, fs)
    else (false, fs)

/-- `_process_mount_mount(mount, comfyui_path, container_id)`
(`src/utils/docker_utils.py` lines 238-247): install dependencies and return
`True` exactly when the type is `"mount"` and the container path mentions
`custom_nodes`. -/
def _process_mount_mount (m : MountEntry) : Bool :=
  m.mtype == "mount" && strContains m.container_path "custom_nodes"

/-- A `mount_config` value: either the legacy per-directory action map or the
current `{"mounts": [...]}` list. -/
inductive MountConfig where
  | oldStyle (pairs : List (String × String))
  | newStyle (entries : List MountEntry)
deriving DecidableEq, Repr

/-- The entry list `copy_directories_to_container` iterates over: a new-style
config is used as is, a legacy one is converted first. -/
def entriesOf (cfg : MountConfig) (comfyui_path : PyPath) : List MountEntry :=
  match cfg with
  | .newStyle es => es
  | .oldStyle pairs => convert_old_to_new_style pairs comfyui_path

/-- `copy_directories_to_container(container_id, comfyui_path, mount_config)`
(`src/utils/docker_utils.py` lines 249-285): for each entry, a `"copy"`
action copies via `_process_copy_mount` and flags `installed_custom_nodes`
when that returned `True` for a `custom_nodes` container path; a `"mount"`
action flags it when `_process_mount_mount` returns `True`.  The returned
boolean tells the caller whether a dependency install ran (restart needed). -/
def copy_directories_to_container (cfg : MountConfig) (comfyui_path : PyPath)
    (fs : List PyPath) : Bool :=
  (entriesOf cfg comfyui_path).foldl
    (fun installed m =>
      let action := strLower m.mtype
      if action == "copy" then
        if (_process_copy_mount m comfyui_path fs).1 then
          if strContains m.container_path "custom_nodes" then true
          else installed
        else installed
      else if action == "mount" then
        if _process_mount_mount m then true else installed
      else installed)
    false

/-- Whether one entry makes `copy_directories_to_container` flag a dependency
install. -/
def entryInstalls (m : MountEntry) (comfyui_path : PyPath)
    (fs : List PyPath) : Bool :=
  (strLower m.mtype == "copy" && (_process_copy_mount m comfyui_path fs).1
      && strContains m.container_path "custom_nodes")
    || (strLower m.mtype == "mount" && _process_mount_mount m)

theorem copy_directories_step (comfyui_path : PyPath) (fs : List PyPath)
    (installed : Bool) (m : MountEntry) :
    (let action := strLower m.mtype
     if action == "copy" then
       if (_process_copy_mount m comfyui_path fs).1 then
         if strContains m.container_path "custom_nodes" then true
         else installed
       else installed
     else if action == "mount" then
       if _process_mount_mount m then true else installed
     else installed) = (installed || entryInstalls m comfyui_path fs) := by
  unfold entryInstalls
  by_cases hc : strLower m.mtype = "copy"
  · by_cases hp : (_process_copy_mount m comfyui_path fs).1 = true
    · by_cases hs : strContains m.container_path "custom_nodes" = true
      · simp [hc, hp, hs]
      · simp [hc, hp, hs]
    · simp [hc, hp]
  · by_cases hm : strLower m.mtype = "mount"
    · by_cases hi : _process_mount_mount m = true
      · simp [hc, hm, hi]
      · simp [hc, hm, hi]
    · simp [hc, hm]

theorem foldl_or_any {α : Type} (g : α → Bool) (l : List α) (b : Bool) :
    l.foldl (fun acc x => acc || g x) b = (b || l.any g) := by
  induction l generalizing b with
  | nil => simp
  | cons x rest ih => simp [ih, Bool.or_assoc]

theorem copy_directories_eq_any (cfg : MountConfig) (comfyui_path : PyPath)
    (fs : List PyPath) :
    copy_directories_to_container cfg comfyui_path fs =
      (entriesOf cfg comfyui_path).any
        (fun m => entryInstalls m comfyui_path fs) := by
  unfold copy_directories_to_container
  have hstep : ∀ (installed : Bool) (m : MountEntry),
      (let action := strLower m.mtype
       if action == "copy" then
         if (_process_copy_mount m comfyui_path fs).1 then
           if strContains m.container_path "custom_nodes" then true
           else installed
         else installed
       else if action == "mount" then
         if _process_mount_mount m then true else installed
       else installed) = (installed || entryInstalls m comfyui_path fs) :=
    fun installed m => copy_directories_step comfyui_path fs installed m
  calc (entriesOf cfg comfyui_path).foldl
        (fun installed m =>
          let action := strLower m.mtype
          if action == "copy" then
            if (_process_copy_mount m comfyui_path fs).1 then
              if strContains m.container_path "custom_nodes" then true
              else installed
            else installed
          else if action == "mount" then
            if _process_mount_mount m then true else installed
          else installed)
        false
      = (entriesOf cfg comfyui_path).foldl
          (fun installed m => installed || entryInstalls m comfyui_path fs)
          false := by
        congr 1
        funext installed m
        exact hstep installed m
    _ = (entriesOf cfg comfyui_path).any
          (fun m => entryInstalls m comfyui_path fs) := by
        rw [foldl_or_any]
        simp

/-- A path is among the directories `mkdir(parents=True)` ensures for it. -/
theorem mem_selfAndAncestors_self (p : PyPath) : p ∈ p.selfAndAncestors := by
  unfold PyPath.selfAndAncestors
  refine List.mem_map.mpr ⟨p.comps.length, ?_, ?_⟩
  · exact List.mem_range.mpr (Nat.lt_succ_self _)
  · simp

/-- The entries `_create_mounts_from_new_config` does not skip: lowercased
type `"mount"` or `"copy"`, and both paths non-falsy. -/
def validEntry (m : MountEntry) : Prop :=
  (strLower m.mtype = "mount" ∨ strLower m.mtype = "copy") ∧
    m.container_path.isEmpty = false ∧ m.host_path.isEmpty = false

instance (m : MountEntry) : Decidable (validEntry m) := by
  unfold validEntry; infer_instance

/-- The bind descriptor `_create_mounts_from_new_config` emits for an entry. -/
def emittedMount (comfyui_path : PyPath) (m : MountEntry) : DMount :=
  { target := (pathOfString m.container_path).asPosix
    source := (resolvedHostPath comfyui_path m.host_path).asPosix
    dtype := "bind"
    read_only := m.read_only }

theorem createMountsStep_valid (comfyui_path : PyPath)
    (st : List DMount × List PyPath) (m : MountEntry) (h : validEntry m) :
    createMountsStep comfyui_path st m =
      (st.1 ++ [emittedMount comfyui_path m],
       if dirExists st.2 (resolvedHostPath comfyui_path m.host_path) then st.2
       else mkdirParents st.2 (resolvedHostPath comfyui_path m.host_path)) := by
  obtain ⟨ht, hc, hh⟩ := h
  unfold createMountsStep emittedMount
  have h1 : ¬(strLower m.mtype ≠ "mount" ∧ strLower m.mtype ≠ "copy") := by
    rcases ht with ht | ht <;> simp [ht]
  have h2 : ¬(m.container_path.isEmpty = true ∨ m.host_path.isEmpty = true) := by
    simp [hc, hh]
  rw [if_neg h1, if_neg h2]

theorem createMountsStep_invalid (comfyui_path : PyPath)
    (st : List DMount × List PyPath) (m : MountEntry) (h : ¬validEntry m) :
    createMountsStep comfyui_path st m = st := by
  unfold createMountsStep
  by_cases h1 : strLower m.mtype ≠ "mount" ∧ strLower m.mtype ≠ "copy"
  · rw [if_pos h1]
  · rw [if_neg h1]
    by_cases h2 : m.container_path.isEmpty = true ∨ m.host_path.isEmpty = true
    · rw [if_pos h2]
    · exfalso
      apply h
      push_neg at h1 h2
      refine ⟨?_, by simpa using h2.1, by simpa using h2.2⟩
      by_cases hm : strLower m.mtype = "mount"
      · exact Or.inl hm
      · exact Or.inr (h1 hm)

theorem createMountsStep_mono (comfyui_path : PyPath)
    (st : List DMount × List PyPath) (m : MountEntry) :
    st.1 ⊆ (createMountsStep comfyui_path st m).1 ∧
      st.2 ⊆ (createMountsStep comfyui_path st m).2 := by
  by_cases h : validEntry m
  · rw [createMountsStep_valid comfyui_path st m h]
    constructor
    · exact List.subset_append_left _ _
    · by_cases hd : dirExists st.2 (resolvedHostPath comfyui_path m.host_path)
      · simp [hd]
      · simp only [hd, if_false, Bool.false_eq_true]
        exact List.subset_append_left _ _
  · rw [createMountsStep_invalid comfyui_path st m h]
    exact ⟨List.Subset.refl _, List.Subset.refl _⟩

theorem createMountsFold_mono (comfyui_path : PyPath)
    (entries : List MountEntry) (st : List DMount × List PyPath) :
    st.1 ⊆ (entries.foldl (createMountsStep comfyui_path) st).1 ∧
      st.2 ⊆ (entries.foldl (createMountsStep comfyui_path) st).2 := by
  induction entries generalizing st with
  | nil => exact ⟨List.Subset.refl _, List.Subset.refl _⟩
  | cons e rest ih =>
    simp only [List.foldl_cons]
    obtain ⟨h1, h2⟩ := createMountsStep_mono comfyui_path st e
    obtain ⟨h3, h4⟩ := ih (createMountsStep comfyui_path st e)
    exact ⟨List.Subset.trans h1 h3, List.Subset.trans h2 h4⟩

theorem createMountsFold_processes (comfyui_path : PyPath)
    (entries : List MountEntry) (st : List DMount × List PyPath)
    (m : MountEntry) (hm : m ∈ entries) (hv : validEntry m) :
    emittedMount comfyui_path m ∈
        (entries.foldl (createMountsStep comfyui_path) st).1 ∧
      resolvedHostPath comfyui_path m.host_path ∈
        (entries.foldl (createMountsStep comfyui_path) st).2 := by
  induction entries generalizing st with
  | nil => cases hm
  | cons e rest ih =>
    simp only [List.foldl_cons]
    rcases List.mem_cons.mp hm with rfl | hrest
    · obtain ⟨hmono1, hmono2⟩ :=
        createMountsFold_mono comfyui_path rest
          (createMountsStep comfyui_path st m)
      constructor
      · apply hmono1
        rw [createMountsStep_valid comfyui_path st m hv]
        simp
      · apply hmono2
        rw [createMountsStep_valid comfyui_path st m hv]
        by_cases hd : dirExists st.2 (resolvedHostPath comfyui_path m.host_path)
        · rw [if_pos hd]
          simpa [dirExists] using hd
        · simp only [hd, if_false, Bool.false_eq_true]
          exact List.mem_append_right _ (mem_selfAndAncestors_self _)
    · exact ih (createMountsStep comfyui_path st e) hrest

/-- C2 counterexample: in mount resolution
(`_create_mounts_from_new_config`), an entry whose action is only `"copy"`
and whose host directory `/data/cn` is missing is *not* skipped: the
directory is created and a bind descriptor is emitted. -/
theorem mount_resolution_copy_entry_counterexample :
    (_create_mounts_from_new_config
        [{ mtype := "copy", container_path := "/app/ComfyUI/custom_nodes",
           host_path := "/data/cn", read_only := false }]
        ⟨true, ["home", "u", "ComfyUI"]⟩ []).1 =
      [{ target := "/app/ComfyUI/custom_nodes", source := "/data/cn",
         dtype := "bind", read_only := false }] ∧
    dirExists
      (_create_mounts_from_new_config
          [{ mtype := "copy", container_path := "/app/ComfyUI/custom_nodes",
             host_path := "/data/cn", read_only := false }]
          ⟨true, ["home", "u", "ComfyUI"]⟩ []).2
      ⟨true, ["data", "cn"]⟩ = true := by
  constructor
  · decide
  · decide

/-- C2 (amended): during mount resolution, *both* `"mount"` and `"copy"`
entries (with non-falsy paths) have their missing host directory created
(with parents) before the bind descriptor is emitted, and both end up with a
descriptor in the output; it is the provisioning copy step
(`_process_copy_mount`) that, on a missing host directory, creates nothing
and skips the entry. -/
theorem mount_resolution_creates_dirs_and_emits
    (entries : List MountEntry) (comfyui_path : PyPath) (fs : List PyPath)
    (m : MountEntry) (hm : m ∈ entries) (hv : validEntry m) :
    emittedMount comfyui_path m ∈
        (_create_mounts_from_new_config entries comfyui_path fs).1 ∧
    resolvedHostPath comfyui_path m.host_path ∈
        (_create_mounts_from_new_config entries comfyui_path fs).2 ∧
    (∀ (st : List DMount × List PyPath),
      dirExists st.2 (resolvedHostPath comfyui_path m.host_path) = false →
        (createMountsStep comfyui_path st m).2 =
            mkdirParents st.2 (resolvedHostPath comfyui_path m.host_path) ∧
          (createMountsStep comfyui_path st m).1 =
            st.1 ++ [emittedMount comfyui_path m]) ∧
    (∀ (fs' : List PyPath),
      dirExists fs' (resolvedHostPath comfyui_path m.host_path) = false →
        _process_copy_mount m comfyui_path fs' = (false, fs')) := by
  obtain ⟨hfold1, hfold2⟩ :=
    createMountsFold_processes comfyui_path entries ([], fs) m hm hv
  refine ⟨?_, ?_, ?_, ?_⟩
  · unfold _create_mounts_from_new_config
    by_cases hw : dirExists
        (entries.foldl (createMountsStep comfyui_path) ([], fs)).2 wslPath = true
    · rw [if_pos hw]
      exact List.mem_append_left _ hfold1
    · rw [if_neg hw]
      exact hfold1
  · unfold _create_mounts_from_new_config
    by_cases hw : dirExists
        (entries.foldl (createMountsStep comfyui_path) ([], fs)).2 wslPath = true
    · rw [if_pos hw]
      exact hfold2
    · rw [if_neg hw]
      exact hfold2
  · intro st hmiss
    rw [createMountsStep_valid comfyui_path st m hv]
    rw [hmiss]
    exact ⟨rfl, rfl⟩
  · intro fs' hmiss
    obtain ⟨_, hc, hh⟩ := hv
    simp [_process_copy_mount, hc, hh, hmiss]

/-- Witness for `mount_resolution_creates_dirs_and_emits` at a concrete
entry list, entry and empty filesystem. -/
theorem mount_resolution_creates_dirs_and_emits_witness :
    emittedMount ⟨true, ["h"]⟩
        { mtype := "mount", container_path := "/app/ComfyUI/models",
          host_path := "models", read_only := false } ∈
      (_create_mounts_from_new_config
          [{ mtype := "mount", container_path := "/app/ComfyUI/models",
             host_path := "models", read_only := false }]
          ⟨true, ["h"]⟩ []).1 ∧
    resolvedHostPath ⟨true, ["h"]⟩ "models" ∈
      (_create_mounts_from_new_config
          [{ mtype := "mount", container_path := "/app/ComfyUI/models",
             host_path := "models", read_only := false }]
          ⟨true, ["h"]⟩ []).2 ∧
    (∀ (st : List DMount × List PyPath),
      dirExists st.2 (resolvedHostPath ⟨true, ["h"]⟩ "models") = false →
        (createMountsStep ⟨true, ["h"]⟩ st
              { mtype := "mount", container_path := "/app/ComfyUI/models",
                host_path := "models", read_only := false }).2 =
            mkdirParents st.2 (resolvedHostPath ⟨true, ["h"]⟩ "models") ∧
          (createMountsStep ⟨true, ["h"]⟩ st
              { mtype := "mount", container_path := "/app/ComfyUI/models",
                host_path := "models", read_only := false }).1 =
            st.1 ++ [emittedMount ⟨true, ["h"]⟩
              { mtype := "mount", container_path := "/app/ComfyUI/models",
                host_path := "models", read_only := false }]) ∧
    (∀ (fs' : List PyPath),
      dirExists fs' (resolvedHostPath ⟨true, ["h"]⟩ "models") = false →
        _process_copy_mount
            { mtype := "mount", container_path := "/app/ComfyUI/models",
              host_path := "models", read_only := false }
            ⟨true, ["h"]⟩ fs' = (false, fs')) :=
  mount_resolution_creates_dirs_and_emits
    [{ mtype := "mount", container_path := "/app/ComfyUI/models",
       host_path := "models", read_only := false }]
    ⟨true, ["h"]⟩ []
    { mtype := "mount", container_path := "/app/ComfyUI/models",
      host_path := "models", read_only := false }
    (by decide) (by decide)

/-! ## Environment records (`environments.json`) -/

/-- A persisted environment record (one dict of `environments.json`).
`duplicate` models the `"duplicate"` key, with `none` for a record written
without the key (`env.get("duplicate", False)` then reads `False`);
`folderIds` models the `"folderIds"` key with `[]` for an absent key;
`deleted_at` models `metadata["deleted_at"]`, the only metadata key the
embedded operations read, `none` when absent.  Other fields mirror the
record dict written by `save_environment_to_db`. -/
structure Env where
  name : String
  image : String
  id : String
  status : String
  command : String
  comfyui_path : String
  duplicate : Option Bool
  folderIds : List String
  deleted_at : Option Nat
deriving DecidableEq, Repr

/-! ## `src/app.py`: `activate_environment` (provisioning slice) -/

/-- Observable outcome of the provisioning block of `activate_environment`:
whether `copy_directories_to_container` ran, what it returned, and how many
times `restart_container` was invoked. -/
structure ActivateResult where
  provisioningRan : Bool
  installed : Bool
  restarts : Nat
deriving DecidableEq, Repr

/-- The provisioning-and-restart slice of `activate_environment`
(`src/app.py` lines 569-590): the record is looked up by id (`None` models
the 404 path); provisioning (`copy_directories_to_container`) runs only when
the record's pre-activation status is `"created"`, and `restart_container`
is invoked exactly once afterwards iff provisioning reported a dependency
install. -/
def activate_environment (envs : List Env) (id : String) (cfg : MountConfig)
    (fs : List PyPath) : Option ActivateResult :=
  match envs.find? (fun e => e.id == id) with
  | none => none
  | some env =>
    let provisioningRan := env.status == "created"
    let installed :=
      if provisioningRan then
        copy_directories_to_container cfg (pathOfString env.comfyui_path) fs
      else false
    some { provisioningRan := provisioningRan
           installed := installed
           restarts := if installed then 1 else 0 }

/-- C4 counterexample: activating a `"created"` record whose mount spec has
an extensions (`custom_nodes`) entry with action `copy` does *not* restart
when the copy's host directory is missing — the claim's "restarts the
container exactly once" fails here (zero restarts, no install). -/
theorem activate_copy_missing_dir_counterexample :
    activate_environment
        [{ name := "e", image := "img", id := "c1", status := "created",
           command := "", comfyui_path := "/h", duplicate := none,
           folderIds := [], deleted_at := none }]
        "c1"
        (.newStyle [{ mtype := "copy",
                      container_path := "/app/ComfyUI/custom_nodes",
                      host_path := "cn", read_only := false }])
        [] =
      some { provisioningRan := true, installed := false, restarts := 0 } := by
  decide

/-- C4 (amended): activating a record whose pre-activation status is
`"created"` runs provisioning, and restarts exactly once when the mount spec
has an extensions (`custom_nodes`) entry of type `"mount"`, or of action
`"copy"` whose host directory exists (so `_process_copy_mount` copies it);
activating a record whose status is `"running"` performs no provisioning and
no restart; the restart never happens more than once. -/
theorem activate_provisioning_restart (envs : List Env) (id : String)
    (cfg : MountConfig) (fs : List PyPath) (env : Env)
    (hfind : envs.find? (fun e => e.id == id) = some env) :
    (env.status = "running" →
      activate_environment envs id cfg fs =
        some { provisioningRan := false, installed := false, restarts := 0 }) ∧
    (env.status = "created" →
      ∀ m ∈ entriesOf cfg (pathOfString env.comfyui_path),
        ((m.mtype = "mount" ∧
            strContains m.container_path "custom_nodes" = true) ∨
          (strLower m.mtype = "copy" ∧
            (_process_copy_mount m (pathOfString env.comfyui_path) fs).1 = true ∧
            strContains m.container_path "custom_nodes" = true)) →
        activate_environment envs id cfg fs =
          some { provisioningRan := true, installed := true, restarts := 1 }) ∧
    (∀ r, activate_environment envs id cfg fs = some r → r.restarts ≤ 1) := by
  refine ⟨?_, ?_, ?_⟩
  · intro hrun
    unfold activate_environment
    rw [hfind]
    simp [hrun]
  · intro hcreated m hmem htrig
    have hinst : entryInstalls m (pathOfString env.comfyui_path) fs = true := by
      unfold entryInstalls
      rcases htrig with ⟨hmt, hsub⟩ | ⟨hlt, hcp, hsub⟩
      · have h2 : strLower "mount" = "mount" := by decide
        simp [_process_mount_mount, hmt, h2, hsub]
      · simp [hlt, hcp, hsub]
    have hany : copy_directories_to_container cfg
        (pathOfString env.comfyui_path) fs = true := by
      rw [copy_directories_eq_any]
      exact List.any_eq_true.mpr ⟨m, hmem, hinst⟩
    unfold activate_environment
    rw [hfind]
    simp [hcreated, hany]
  · intro r hr
    unfold activate_environment at hr
    rw [hfind] at hr
    simp only [Option.some.injEq] at hr
    subst hr
    dsimp only
    split
    · split <;> omega
    · simp

/-- Concrete record used to witness the activation theorem. -/
def sampleCreatedEnv : Env :=
  { name := "e", image := "img", id := "c1", status := "created",
    command := "", comfyui_path := "/h", duplicate := none,
    folderIds := [], deleted_at := none }

/-- Concrete mount spec with an extensions `"mount"` entry. -/
def sampleExtensionsCfg : MountConfig :=
  .newStyle [{ mtype := "mount",
               container_path := "/app/ComfyUI/custom_nodes",
               host_path := "cn", read_only := false }]

/-- Witness for `activate_provisioning_restart` at a concrete record and
mount spec. -/
theorem activate_provisioning_restart_witness :
    (sampleCreatedEnv.status = "running" →
      activate_environment [sampleCreatedEnv] "c1" sampleExtensionsCfg [] =
        some { provisioningRan := false, installed := false, restarts := 0 }) ∧
    (sampleCreatedEnv.status = "created" →
      ∀ m ∈ entriesOf sampleExtensionsCfg
          (pathOfString sampleCreatedEnv.comfyui_path),
        ((m.mtype = "mount" ∧
            strContains m.container_path "custom_nodes" = true) ∨
          (strLower m.mtype = "copy" ∧
            (_process_copy_mount m
                (pathOfString sampleCreatedEnv.comfyui_path) []).1 = true ∧
            strContains m.container_path "custom_nodes" = true)) →
        activate_environment [sampleCreatedEnv] "c1" sampleExtensionsCfg [] =
          some { provisioningRan := true, installed := true, restarts := 1 }) ∧
    (∀ r, activate_environment [sampleCreatedEnv] "c1" sampleExtensionsCfg []
        = some r → r.restarts ≤ 1) :=
  activate_provisioning_restart [sampleCreatedEnv] "c1" sampleExtensionsCfg []
    sampleCreatedEnv (by decide)

/-! ## `src/utils/environment_manager.py`: `load_environments` -/

/-- Outcome of `get_container(env["id"])` for one stored record: the engine
reports the container missing, reports its live status, or fails. -/
inductive Lookup where
  | notFound
  | found (status : String)
  | err (msg : String)
deriving DecidableEq, Repr

/-- The reconciliation loop of `load_environments`
(`src/utils/environment_manager.py` lines 60-69): `NotFound` makes the
record's status `"dead"`, success overwrites it with the container's status,
and any other error aborts the whole load (no partial result is persisted). -/
def reconcileEnvs (lu : String → Lookup) : List Env → Except String (List Env)
  | [] => .ok []
  | e :: rest =>
    match lu e.id with
    | .notFound =>
      (reconcileEnvs lu rest).map (fun r => { e with status := "dead" } :: r)
    | .found s =>
      (reconcileEnvs lu rest).map (fun r => { e with status := s } :: r)
    | .err m => .error m

/-- The reconciled form of a single record (no-error case). -/
def reconStatus (lu : String → Lookup) (e : Env) : Env :=
  match lu e.id with
  | .notFound => { e with status := "dead" }
  | .found s => { e with status := s }
  | .err _ => e

/-- What a successful `load_environments` persisted (the full reconciled
list, saved before returning) and what it returned (the filtered view). -/
structure LoadResult where
  persisted : List Env
  returned : List Env
deriving DecidableEq, Repr

/-- `load_environments(folder_id)` (`src/utils/environment_manager.py` lines
45-80): reconcile every record against the engine, persist the reconciled
list via `save_environments`, then filter the returned view — an explicit
folder id keeps records carrying that tag, the sentinel `"all"` drops
records tagged `"deleted"`, no filter (or a falsy empty string) returns
everything. -/
def load_environments (envs : List Env) (folder_id : Option String)
    (lu : String → Lookup) : Except String LoadResult :=
  match reconcileEnvs lu envs with
  | .error m => .error m
  | .ok recs =>
    let returned :=
      match folder_id with
      | none => recs
      | some fid =>
        if fid.isEmpty then recs
        else if fid = "all" then
          recs.filter (fun e => !(e.folderIds.contains "deleted"))
        else recs.filter (fun e => e.folderIds.contains fid)
    .ok { persisted := recs, returned := returned }

theorem reconStatus_id (lu : String → Lookup) (e : Env) :
    (reconStatus lu e).id = e.id := by
  unfold reconStatus
  cases lu e.id <;> rfl

theorem reconcileEnvs_ok (lu : String → Lookup) (envs : List Env)
    (hok : ∀ e ∈ envs, ∀ msg, lu e.id ≠ .err msg) :
    reconcileEnvs lu envs = .ok (envs.map (reconStatus lu)) := by
  induction envs with
  | nil => rfl
  | cons e rest ih =>
    have hr : ∀ x ∈ rest, ∀ msg, lu x.id ≠ .err msg :=
      fun x hx => hok x (List.mem_cons_of_mem _ hx)
    have he := hok e (List.mem_cons_self e rest)
    unfold reconcileEnvs
    cases hlu : lu e.id with
    | notFound => rw [ih hr]; simp [reconStatus, hlu, Except.map]
    | found s => rw [ih hr]; simp [reconStatus, hlu, Except.map]
    | err m => exact absurd hlu (he m)

/-- C5: when no record's container lookup fails with an engine error, load
succeeds; every record is persisted with its engine-reconciled status (the
whole reconciled list is saved before the call returns), a record whose
lookup reports `NotFound` is persisted with status `"dead"` and — in the
unfiltered view — returned that way, and every returned record's status is
the freshly recomputed one, never the stored value. -/
theorem load_reconciles_and_persists (envs : List Env)
    (folder_id : Option String) (lu : String → Lookup)
    (hok : ∀ e ∈ envs, ∀ msg, lu e.id ≠ .err msg) :
    ∃ res, load_environments envs folder_id lu = .ok res ∧
      res.persisted = envs.map (reconStatus lu) ∧
      (∀ e ∈ envs, lu e.id = .notFound →
        { e with status := "dead" } ∈ res.persisted) ∧
      (folder_id = none → res.returned = res.persisted) ∧
      (∀ r ∈ res.returned,
        (lu r.id = .notFound → r.status = "dead") ∧
        (∀ s, lu r.id = .found s → r.status = s)) := by
  have hrec := reconcileEnvs_ok lu envs hok
  unfold load_environments
  rw [hrec]
  refine ⟨_, rfl, rfl, ?_, ?_, ?_⟩
  · intro e he hlu
    exact List.mem_map.mpr ⟨e, he, by simp [reconStatus, hlu]⟩
  · intro hnone
    subst hnone
    rfl
  · intro r hr
    have hrmem : r ∈ envs.map (reconStatus lu) := by
      cases folder_id with
      | none => exact hr
      | some fid =>
        by_cases h1 : fid.isEmpty = true
        · simpa [h1] using hr
        · by_cases h2 : fid = "all"
          · simp only [h1, h2, if_false, if_true, Bool.false_eq_true,
              reduceIte] at hr
            exact List.mem_of_mem_filter hr
          · simp only [h1, h2, if_false, Bool.false_eq_true, reduceIte] at hr
            exact List.mem_of_mem_filter hr
    rcases List.mem_map.mp hrmem with ⟨e, _, rfl⟩
    constructor
    · intro hlu
      rw [reconStatus_id] at hlu
      simp [reconStatus, hlu]
    · intro s hlu
      rw [reconStatus_id] at hlu
      simp [reconStatus, hlu]

/-- Stored record whose container has vanished (stored status is stale). -/
def sampleDeadEnv : Env :=
  { name := "gone", image := "img", id := "a", status := "running",
    command := "", comfyui_path := "/h", duplicate := none,
    folderIds := [], deleted_at := none }

/-- Stored record whose container is alive. -/
def sampleAliveEnv : Env :=
  { name := "alive", image := "img", id := "b", status := "created",
    command := "", comfyui_path := "/h", duplicate := none,
    folderIds := [], deleted_at := none }

/-- Concrete engine: container `"a"` is missing, `"b"` is running. -/
def sampleLookup : String → Lookup :=
  fun cid => if cid == "a" then .notFound else .found "running"

/-- Witness for `load_reconciles_and_persists` on a store with one vanished
and one live container, unfiltered. -/
theorem load_reconciles_and_persists_witness :
    ∃ res, load_environments [sampleDeadEnv, sampleAliveEnv] none sampleLookup
        = .ok res ∧
      res.persisted =
        [sampleDeadEnv, sampleAliveEnv].map (reconStatus sampleLookup) ∧
      (∀ e ∈ [sampleDeadEnv, sampleAliveEnv], sampleLookup e.id = .notFound →
        { e with status := "dead" } ∈ res.persisted) ∧
      ((none : Option String) = none → res.returned = res.persisted) ∧
      (∀ r ∈ res.returned,
        (sampleLookup r.id = .notFound → r.status = "dead") ∧
        (∀ s, sampleLookup r.id = .found s → r.status = s)) :=
  load_reconciles_and_persists [sampleDeadEnv, sampleAliveEnv] none
    sampleLookup
    (by
      intro e he msg hcontra
      rcases List.mem_cons.mp he with rfl | he2
      · simp [sampleLookup, sampleDeadEnv] at hcontra
      · rcases List.mem_cons.mp he2 with rfl | he3
        · simp [sampleLookup, sampleAliveEnv] at hcontra
        · cases he3)

/-! ## Name validation: `check_environment_name` and `create_environment` -/

/-- `check_environment_name(environments, env)`
(`src/utils/environment_manager.py` lines 99-110): only the length check is
active in the source — the character-class check and the name-collision
check are commented out.  Returns the rejection message, `none` when
accepted.  The `environments` argument is taken (as in the source) but not
consulted. -/
def check_environment_name (_environments : List Env) (name : String) :
    Option String :=
  if name.length > 128 then some "name too long" else none

/-- The un-anchored `re.match(r'[a-zA-Z0-9][a-zA-Z0-9_.-]', name)` of
`create_environment`: first character alphanumeric, second in
`[a-zA-Z0-9_.-]` (no `$`, so anything may follow). -/
def nameRegexMatches (name : String) : Bool :=
  match name.toList with
  | c1 :: c2 :: _ =>
    c1.isAlphanum && (c2.isAlphanum || c2 = '_' || c2 = '.' || c2 = '-')
  | _ => false

/-- The validation prefix of `create_environment` (`src/app.py` lines
344-355) — everything that runs before the container-engine creation call:
character check, then the 128-character length check, then the name-collision
check against every loaded record (`any(e["name"] == env.name)`; the
`"deleted"` folder tag plays no role).  `none` means validation passed and
control reaches `client.containers.create`. -/
def create_environment_validation (environments : List Env) (name : String) :
    Option String :=
  if !nameRegexMatches name then some "invalid characters"
  else if name.length > 128 then some "name too long"
  else if environments.any (fun e => e.name == name) then some "name exists"
  else none

/-- C6 counterexample: `check_environment_name` accepts a name equal to an
existing non-deleted record's name (the claim says it is rejected), and
`create_environment`'s validation rejects a name colliding only with a
`"deleted"`-tagged record (the claim says it is accepted). -/
theorem name_uniqueness_counterexample :
    check_environment_name
        [{ name := "xy", image := "img", id := "c1", status := "created",
           command := "", comfyui_path := "/h", duplicate := none,
           folderIds := [], deleted_at := none }] "xy" = none ∧
    create_environment_validation
        [{ name := "xy", image := "img", id := "c1", status := "created",
           command := "", comfyui_path := "/h", duplicate := none,
           folderIds := ["deleted"], deleted_at := some 5 }] "xy" =
      some "name exists" := by
  constructor
  · decide
  · decide

/-- C6 (amended): both validation paths reject a name longer than 128
characters before the container-creation engine call is reached; but name
uniqueness is *not* scoped to non-deleted records: `create_environment`
rejects a collision with any loaded record, `"deleted"`-tagged or not, while
`check_environment_name` enforces no uniqueness at all (the check is
commented out) and accepts every collision. -/
theorem name_validation_behaviour (environments : List Env) (name : String) :
    (128 < name.length →
      (check_environment_name environments name).isSome ∧
        (create_environment_validation environments name).isSome) ∧
    (nameRegexMatches name = true → name.length ≤ 128 →
      (create_environment_validation environments name = some "name exists" ↔
        environments.any (fun e => e.name == name) = true)) ∧
    (name.length ≤ 128 → check_environment_name environments name = none) := by
  refine ⟨?_, ?_, ?_⟩
  · intro hlen
    constructor
    · simp [check_environment_name, hlen]
    · unfold create_environment_validation
      by_cases hre : nameRegexMatches name = true
      · simp [hre, hlen]
      · simp [hre]
  · intro hre hlen
    have hlen' : ¬(name.length > 128) := by omega
    unfold create_environment_validation
    rw [hre]
    simp only [Bool.not_true, Bool.false_eq_true, reduceIte, hlen', ite_false]
    by_cases hany : environments.any (fun e => e.name == name) = true
    · simp [hany]
    · simp [hany]
  · intro hlen
    have hlen' : ¬(name.length > 128) := by omega
    simp [check_environment_name, hlen']

/-- Witness for `name_validation_behaviour`: concrete records and names
discharging each implication. -/
theorem name_validation_behaviour_witness :
    (check_environment_name
        [{ name := "yy", image := "i", id := "c", status := "created",
           command := "", comfyui_path := "/h", duplicate := none,
           folderIds := ["deleted"], deleted_at := none }] "yy" = none) ∧
    (create_environment_validation
        [{ name := "yy", image := "i", id := "c", status := "created",
           command := "", comfyui_path := "/h", duplicate := none,
           folderIds := ["deleted"], deleted_at := none }] "yy" =
        some "name exists" ↔
      (([{ name := "yy", image := "i", id := "c", status := "created",
           command := "", comfyui_path := "/h", duplicate := none,
           folderIds := ["deleted"], deleted_at := none }] : List Env).any
        (fun e => e.name == "yy")) = true) := by
  obtain ⟨_, h2, h3⟩ := name_validation_behaviour
    [{ name := "yy", image := "i", id := "c", status := "created",
       command := "", comfyui_path := "/h", duplicate := none,
       folderIds := ["deleted"], deleted_at := none }] "yy"
  exact ⟨h3 (by decide), h2 (by decide) (by decide)⟩

/-! ## `src/app.py`: `deactivate_environment` -/

/-- `SIGNAL_TIMEOUT = 2` from `src/app.py`. -/
def SIGNAL_TIMEOUT : Nat := 2

/-- The container states on which `deactivate_environment` returns success
without doing anything. -/
def noopStatuses : List String := ["stopped", "exited", "created", "dead"]

/-- The in-place `env["status"] = "stopped"` on the record found by
`next(...)` (the first with the id), followed by saving the whole list. -/
def setFirstStopped : List Env → String → List Env
  | [], _ => []
  | e :: rest, cid =>
    if e.id == cid then { e with status := "stopped" } :: rest
    else e :: setFirstStopped rest cid

/-- Observable outcome of `deactivate_environment`:
`envNotFound` is the 404 path; `noopSuccess` is the early success return
(no stop, no save — the store is untouched); `stoppedSuccess` carries the
timeout passed to `container.stop` and the list passed to
`save_environments`; `engineError` is the 400 path when the stop fails. -/
inductive DeactivateOutcome where
  | envNotFound
  | noopSuccess
  | stoppedSuccess (stopTimeout : Nat) (persisted : List Env)
  | engineError
deriving DecidableEq, Repr

/-- `deactivate_environment(id)` (`src/app.py` lines 593-612): look up the
record; when the container's reported state is `stopped`, `exited`,
`created` or `dead`, return success untouched; otherwise stop the container
with timeout `SIGNAL_TIMEOUT`, set the record's status to `"stopped"` and
persist.  `containerStatus` is the engine's report, `stopOk` injects the
outcome of the stop call. -/
def deactivate_environment (envs : List Env) (cid : String)
    (containerStatus : String) (stopOk : Bool) : DeactivateOutcome :=
  match envs.find? (fun e => e.id == cid) with
  | none => .envNotFound
  | some _ =>
    if containerStatus == "stopped" || containerStatus == "exited"
        || containerStatus == "created" || containerStatus == "dead" then
      .noopSuccess
    else if stopOk then
      .stoppedSuccess SIGNAL_TIMEOUT (setFirstStopped envs cid)
    else .engineError

theorem setFirstStopped_find (envs : List Env) (cid : String) (env : Env)
    (hfind : envs.find? (fun e => e.id == cid) = some env) :
    (setFirstStopped envs cid).find? (fun e => e.id == cid) =
      some { env with status := "stopped" } := by
  induction envs with
  | nil => simp at hfind
  | cons e rest ih =>
    by_cases h : (e.id == cid) = true
    · have hfind' : some e = some env := by
        simpa [List.find?_cons, h] using hfind
      injection hfind' with he
      subst he
      unfold setFirstStopped
      rw [if_pos h]
      simp [List.find?_cons, h]
    · unfold setFirstStopped
      rw [if_neg h]
      have hfind' : List.find? (fun e => e.id == cid) rest = some env := by
        simpa [List.find?_cons, h] using hfind
      simpa [List.find?_cons, h] using ih hfind' 

/-- C8: deactivation is a no-op success when the container's current state
is `stopped`, `exited`, `created` or `dead` (nothing is saved, the record is
untouched); in every other state, when the stop succeeds, the container is
stopped with the bounded timeout `SIGNAL_TIMEOUT = 2` and the record is
persisted with status `"stopped"`. -/
theorem deactivate_noop_or_stop (envs : List Env) (cid : String)
    (containerStatus : String) (stopOk : Bool) (env : Env)
    (hfind : envs.find? (fun e => e.id == cid) = some env) :
    ((containerStatus = "stopped" ∨ containerStatus = "exited" ∨
        containerStatus = "created" ∨ containerStatus = "dead") →
      deactivate_environment envs cid containerStatus stopOk = .noopSuccess) ∧
    (containerStatus ≠ "stopped" → containerStatus ≠ "exited" →
      containerStatus ≠ "created" → containerStatus ≠ "dead" →
      stopOk = true →
      deactivate_environment envs cid containerStatus stopOk =
          .stoppedSuccess SIGNAL_TIMEOUT (setFirstStopped envs cid) ∧
        SIGNAL_TIMEOUT = 2 ∧
        (setFirstStopped envs cid).find? (fun e => e.id == cid) =
          some { env with status := "stopped" }) := by
  constructor
  · intro hs
    unfold deactivate_environment
    rw [hfind]
    rcases hs with h | h | h | h <;> simp [h]
  · intro h1 h2 h3 h4 hok
    refine ⟨?_, rfl, setFirstStopped_find envs cid env hfind⟩
    unfold deactivate_environment
    rw [hfind]
    simp [h1, h2, h3, h4, hok]

/-- Witness for `deactivate_noop_or_stop`: a running container is stopped
with timeout 2 and persisted as `"stopped"`; instantiating the no-op part
needs a second concrete state, shown via the same theorem applied at
`"exited"`. -/
theorem deactivate_noop_or_stop_witness :
    (deactivate_environment [sampleCreatedEnv] "c1" "exited" true =
      .noopSuccess) ∧
    (deactivate_environment [sampleCreatedEnv] "c1" "running" true =
        .stoppedSuccess SIGNAL_TIMEOUT (setFirstStopped [sampleCreatedEnv] "c1") ∧
      SIGNAL_TIMEOUT = 2 ∧
      (setFirstStopped [sampleCreatedEnv] "c1").find? (fun e => e.id == "c1") =
        some { sampleCreatedEnv with status := "stopped" }) := by
  constructor
  · exact (deactivate_noop_or_stop [sampleCreatedEnv] "c1" "exited" true
      sampleCreatedEnv (by decide)).1 (Or.inr (Or.inl rfl))
  · exact (deactivate_noop_or_stop [sampleCreatedEnv] "c1" "running" true
      sampleCreatedEnv (by decide)).2
      (by decide) (by decide) (by decide) (by decide) rfl

/-! ## `src/utils/environment_manager.py`: pruning -/

/-- `"deleted" in env.get("folderIds", [])`. -/
def isDeletedEnv (e : Env) : Bool := e.folderIds.contains "deleted"

/-- The sort key `e.get("metadata", dict()).get("deleted_at", 0)`: a missing
timestamp sorts as `0`, i.e. oldest. -/
def deletedAtKey (e : Env) : Nat := e.deleted_at.getD 0

/-- The comparison under which `deleted_envs.sort(key=...)` orders records. -/
def deletedAtLe (a b : Env) : Bool := decide (deletedAtKey a ≤ deletedAtKey b)

/-- `prune_deleted_environments(environments, max_deleted)`
(`src/utils/environment_manager.py` lines 112-137): collect the
`"deleted"`-tagged records; when they exceed the limit, sort them by
`deleted_at` ascending (missing timestamps first) and hard-delete the oldest
excess one by one.  `ok e` injects whether `hard_delete_environment`
completes for `e`: on an `HTTPException` the record is *not* removed from
the list (`environments.remove` is unreached) but the loop continues with
the next record. -/
def prune_deleted_environments (envs : List Env) (maxDeleted : Nat)
    (ok : Env → Bool) : List Env :=
  let deleted_envs := envs.filter isDeletedEnv
  if deleted_envs.length ≤ maxDeleted then envs
  else
    let sorted := deleted_envs.mergeSort deletedAtLe
    let toRemove := sorted.take (deleted_envs.length - maxDeleted)
    toRemove.foldl (fun acc e => if ok e then acc.erase e else acc) envs

/-- The records `prune_deleted_environments` attempts to hard-delete. -/
def pruneExcess (envs : List Env) (maxDeleted : Nat) : List Env :=
  let deleted_envs := envs.filter isDeletedEnv
  (deleted_envs.mergeSort deletedAtLe).take (deleted_envs.length - maxDeleted)

theorem prune_fold_eq_diff (ok : Env → Bool) (l : List Env)
    (envs : List Env) :
    l.foldl (fun acc e => if ok e then acc.erase e else acc) envs =
      envs.diff (l.filter ok) := by
  induction l generalizing envs with
  | nil => simp
  | cons e rest ih =>
    simp only [List.foldl_cons, List.filter_cons]
    by_cases h : ok e = true
    · rw [if_pos h, if_pos h, ih, List.diff_cons]
    · rw [if_neg h, if_neg h, ih]

theorem deletedAtLe_trans : ∀ (a b c : Env),
    deletedAtLe a b = true → deletedAtLe b c = true →
      deletedAtLe a c = true := by
  intro a b c hab hbc
  simp only [deletedAtLe, decide_eq_true_eq] at *
  omega

theorem deletedAtLe_total : ∀ (a b : Env),
    (deletedAtLe a b || deletedAtLe b a) = true := by
  intro a b
  simp only [deletedAtLe]
  by_cases h : deletedAtKey a ≤ deletedAtKey b
  · simp [h]
  · simp [h]
    omega

/-- C3: for a duplicate-free record list whose `"deleted"`-tagged records
exceed the limit, pruning attempts to hard-delete exactly the
`count - max_deleted` oldest deleted records (by `deleted_at` ascending,
missing timestamps as `0`, i.e. oldest); those records are all
`"deleted"`-tagged and each is no newer than any spared sorted record;
afterwards a record remains exactly when it was not an excess record whose
hard-delete completed (so one failing hard-delete does not stop the rest),
every non-deleted record survives, and with all hard-deletes succeeding
exactly `max_deleted` deleted records remain. -/
theorem prune_removes_oldest_excess (envs : List Env) (m : Nat)
    (ok : Env → Bool) (hnd : envs.Nodup)
    (hgt : m < (envs.filter isDeletedEnv).length) :
    (pruneExcess envs m).length = (envs.filter isDeletedEnv).length - m ∧
    (∀ e ∈ pruneExcess envs m, isDeletedEnv e = true) ∧
    (∀ a ∈ pruneExcess envs m,
      ∀ b ∈ ((envs.filter isDeletedEnv).mergeSort deletedAtLe).drop
          ((envs.filter isDeletedEnv).length - m),
        deletedAtKey a ≤ deletedAtKey b) ∧
    (∀ e, e ∈ prune_deleted_environments envs m ok ↔
      (e ∈ envs ∧ ¬(e ∈ pruneExcess envs m ∧ ok e = true))) ∧
    (∀ e ∈ envs, isDeletedEnv e = false →
      e ∈ prune_deleted_environments envs m ok) ∧
    ((prune_deleted_environments envs m (fun _ => true)).filter
        isDeletedEnv).length = m := by
  have hndds : (envs.filter isDeletedEnv).Nodup := hnd.filter _
  have hperm : ((envs.filter isDeletedEnv).mergeSort deletedAtLe).Perm
      (envs.filter isDeletedEnv) :=
    List.mergeSort_perm _ deletedAtLe
  have hsortnd : ((envs.filter isDeletedEnv).mergeSort deletedAtLe).Nodup :=
    hperm.symm.nodup hndds
  have hlen : ((envs.filter isDeletedEnv).mergeSort deletedAtLe).length =
      (envs.filter isDeletedEnv).length := hperm.length_eq
  have hk : (envs.filter isDeletedEnv).length - m ≤
      ((envs.filter isDeletedEnv).mergeSort deletedAtLe).length := by omega
  have hexcess_eq : pruneExcess envs m =
      ((envs.filter isDeletedEnv).mergeSort deletedAtLe).take
        ((envs.filter isDeletedEnv).length - m) := rfl
  have hsplit : pruneExcess envs m ++
      ((envs.filter isDeletedEnv).mergeSort deletedAtLe).drop
        ((envs.filter isDeletedEnv).length - m) =
      (envs.filter isDeletedEnv).mergeSort deletedAtLe := by
    rw [hexcess_eq]
    exact List.take_append_drop _ _
  have hexcess_sub : pruneExcess envs m ⊆ envs.filter isDeletedEnv := by
    intro x hx
    rw [hexcess_eq] at hx
    exact hperm.mem_iff.mp (List.take_subset _ _ hx)
  have hprune_eq : ∀ (g : Env → Bool),
      prune_deleted_environments envs m g =
        envs.diff ((pruneExcess envs m).filter g) := by
    intro g
    unfold prune_deleted_environments
    rw [if_neg (by omega)]
    exact prune_fold_eq_diff g _ envs
  have hmem_char : ∀ (g : Env → Bool) (e : Env),
      e ∈ prune_deleted_environments envs m g ↔
        (e ∈ envs ∧ ¬(e ∈ pruneExcess envs m ∧ g e = true)) := by
    intro g e
    rw [hprune_eq g, List.Nodup.diff_eq_filter hnd, List.mem_filter]
    simp only [decide_eq_true_eq, List.mem_filter]
  refine ⟨?_, ?_, ?_, hmem_char ok, ?_, ?_⟩
  · rw [hexcess_eq, List.length_take]
    omega
  · intro e he
    exact (List.mem_filter.mp (hexcess_sub he)).2
  · intro a ha b hb
    have hpair := List.sorted_mergeSort deletedAtLe_trans deletedAtLe_total
      (envs.filter isDeletedEnv)
    rw [← hsplit] at hpair
    have h := (List.pairwise_append.mp hpair).2.2 a ha b hb
    simpa [deletedAtLe] using h
  · intro e he hdel
    rw [hmem_char ok e]
    refine ⟨he, ?_⟩
    rintro ⟨hex, _⟩
    have := (List.mem_filter.mp (hexcess_sub hex)).2
    rw [hdel] at this
    cases this
  · have hres : prune_deleted_environments envs m (fun _ => true) =
        envs.filter (fun x => decide (x ∉ pruneExcess envs m)) := by
      rw [hprune_eq, List.filter_true, List.Nodup.diff_eq_filter hnd]
    rw [hres, List.filter_comm]
    have hlen2 : ((envs.filter isDeletedEnv).filter
        (fun x => decide (x ∉ pruneExcess envs m))).length =
        (((envs.filter isDeletedEnv).mergeSort deletedAtLe).filter
          (fun x => decide (x ∉ pruneExcess envs m))).length :=
      ((hperm.filter _).length_eq).symm
    rw [hlen2, ← hsplit, List.filter_append]
    have h1 : (pruneExcess envs m).filter
        (fun x => decide (x ∉ pruneExcess envs m)) = [] := by
      rw [List.filter_eq_nil_iff]
      intro a ha
      simp [ha]
    have h2 : ((((envs.filter isDeletedEnv).mergeSort deletedAtLe).drop
        ((envs.filter isDeletedEnv).length - m)).filter
        (fun x => decide (x ∉ pruneExcess envs m))) =
        (((envs.filter isDeletedEnv).mergeSort deletedAtLe).drop
          ((envs.filter isDeletedEnv).length - m)) := by
      rw [List.filter_eq_self]
      intro a ha
      have hnd2 := hsortnd
      rw [← hsplit] at hnd2
      have hdisj := (List.nodup_append.mp hnd2).2.2
      simp only [decide_eq_true_eq]
      intro hmem
      exact hdisj hmem ha
    rw [h1, h2, List.nil_append, List.length_drop]
    omega

/-- A soft-deleted record with the given id and deletion timestamp. -/
def mkDeletedEnv (cid : String) (t : Nat) : Env :=
  { name := cid, image := "img", id := cid, status := "dead", command := "",
    comfyui_path := "/h", duplicate := none, folderIds := ["deleted"],
    deleted_at := some t }

/-- Five soft-deleted records with distinct `deleted_at` values. -/
def pruneSample : List Env :=
  [mkDeletedEnv "a" 5, mkDeletedEnv "b" 1, mkDeletedEnv "c" 4,
   mkDeletedEnv "d" 2, mkDeletedEnv "e" 3]

/-- Witness for `prune_removes_oldest_excess` at the spec's example: five
soft-deleted records with distinct timestamps pruned to `max_deleted = 2`. -/
theorem prune_removes_oldest_excess_witness :
    (pruneExcess pruneSample 2).length =
        (pruneSample.filter isDeletedEnv).length - 2 ∧
    (∀ e ∈ pruneExcess pruneSample 2, isDeletedEnv e = true) ∧
    (∀ a ∈ pruneExcess pruneSample 2,
      ∀ b ∈ ((pruneSample.filter isDeletedEnv).mergeSort deletedAtLe).drop
          ((pruneSample.filter isDeletedEnv).length - 2),
        deletedAtKey a ≤ deletedAtKey b) ∧
    (∀ e, e ∈ prune_deleted_environments pruneSample 2 (fun _ => true) ↔
      (e ∈ pruneSample ∧
        ¬(e ∈ pruneExcess pruneSample 2 ∧ (fun (_ : Env) => true) e = true))) ∧
    (∀ e ∈ pruneSample, isDeletedEnv e = false →
      e ∈ prune_deleted_environments pruneSample 2 (fun _ => true)) ∧
    ((prune_deleted_environments pruneSample 2 (fun _ => true)).filter
        isDeletedEnv).length = 2 :=
  prune_removes_oldest_excess pruneSample 2 (fun _ => true)
    (by decide) (by decide)

/-! ## `src/app.py`: `duplicate_environment` -/

/-- The engine's image-tag table: which tags exist and which image identity
each names, plus a counter supplying fresh identities for `commit`. -/
structure ImgState where
  tags : List (String × Nat)
  nextId : Nat
deriving DecidableEq, Repr

/-- `client.images.get(tag)`: `none` models `ImageNotFound`. -/
def getImage (st : ImgState) (tag : String) : Option Nat :=
  (st.tags.find? (fun kv => kv.1 == tag)).map (fun kv => kv.2)

/-- `image.tag(tag)`: the tag now names `iid` (replacing any previous). -/
def tagImage (st : ImgState) (tag : String) (iid : Nat) : ImgState :=
  { st with tags := (st.tags.filter (fun kv => !(kv.1 == tag))) ++ [(tag, iid)] }

/-- `client.images.remove(tag, force=True)` when the tag exists. -/
def removeTag (st : ImgState) (tag : String) : ImgState :=
  { st with tags := st.tags.filter (fun kv => !(kv.1 == tag)) }

/-- `container.commit(repository=repo, tag="latest")`: a fresh image is
created and the tag now names it. -/
def commitLatest (st : ImgState) (tag : String) : Nat × ImgState :=
  (st.nextId, { tagImage st tag st.nextId with nextId := st.nextId + 1 })

/-- `image_repo + ":temp"` from `duplicate_environment`. -/
def temp_tag : String := "comfy-environment-clone:temp"

/-- `image_repo + ":latest"` from `duplicate_environment`. -/
def latest_tag : String := "comfy-environment-clone:latest"

/-- The `except docker.errors.APIError` rollback handler of
`duplicate_environment` (`src/app.py` lines 481-491): remove the `latest`
tag, retag the temp backup as `latest`, remove the temp tag; an
`ImageNotFound` raised by any step is caught by the handler's inner
`except`, abandoning the remaining steps. -/
def duplicateRollback (st : ImgState) : ImgState :=
  match getImage st latest_tag with
  | none => st
  | some _ =>
    let st1 := removeTag st latest_tag
    match getImage st1 temp_tag with
    | none => st1
    | some iid =>
      removeTag (tagImage st1 latest_tag iid) temp_tag

/-- `save_environment_to_db(environments, env, container_id, image)`
(`src/app.py` lines 324-337): the persisted dict carries name, image,
status `"created"`, id, comfyui_path and command — and *no* `"duplicate"`
key (`duplicate := none`) and no `"folderIds"` key (`[]`).  `deleted_at`
carries over whatever `env.metadata` held. -/
def app_save_environment_to_db (environments : List Env) (env : Env)
    (container_id : String) (image : String) : List Env × Env :=
  let new_env : Env :=
    { name := env.name, image := image, status := "created",
      id := container_id, command := env.command,
      comfyui_path := env.comfyui_path, duplicate := none,
      folderIds := [], deleted_at := env.deleted_at }
  (environments ++ [new_env], new_env)

/-- `save_environment_to_db(environments, env, container_id, image,
is_duplicate)` (`src/utils/environment_manager.py` lines 82-97): the record
is `env.dict()` with image, id, `duplicate = is_duplicate` (default
`False`) and status `"created"` overridden. -/
def em_save_environment_to_db (environments : List Env) (env : Env)
    (container_id : String) (image : String) (is_duplicate : Bool) :
    List Env × Env :=
  let env_dict : Env :=
    { env with
      image := image
      id := container_id
      duplicate := some is_duplicate
      status := "created" }
  (environments ++ [env_dict], env_dict)

/-- Visible outcome of `duplicate_environment`. -/
inductive DupOutcome where
  | validationError (msg : String)
  | notFoundError (msg : String)
  | engineError
  | ok (saved : Env)
deriving DecidableEq, Repr

/-- `duplicate_environment(id, env)` (`src/app.py` lines 400-494) over an
explicit image-tag state: validate the new name; find the source record;
reject a `"created"` source; get the source container (`containerExists`);
back up an existing `latest` image under the temp tag; commit the source
container to `latest`; *immediately remove the temp backup*; create the new
container (`createOk` injects an `APIError` failure); on success persist
via `save_environment_to_db` (metadata inherited from the source record);
on failure run the rollback handler and re-raise.  Returns the outcome, the
final image-tag state, and the persisted environments list. -/
def duplicate_environment (environments : List Env) (cid : String)
    (env : Env) (containerExists createOk : Bool) (newContainerId : String)
    (st : ImgState) : DupOutcome × ImgState × List Env :=
  if !nameRegexMatches env.name then
    (.validationError "invalid characters", st, environments)
  else if env.name.length > 128 then
    (.validationError "name too long", st, environments)
  else if environments.any (fun e => e.name == env.name) then
    (.validationError "name exists", st, environments)
  else
    match environments.find? (fun e => e.id == cid) with
    | none => (.notFoundError "Environment not found.", st, environments)
    | some prev_env =>
      if prev_env.status == "created" then
        (.validationError "activate before duplicating", st, environments)
      else if !containerExists then
        (.notFoundError "Container not found.", st, environments)
      else
        let st1 := match getImage st latest_tag with
          | some iid => tagImage st temp_tag iid
          | none => st
        let st2 := (commitLatest st1 latest_tag).2
        let st3 := removeTag st2 temp_tag
        if createOk then
          let saved := app_save_environment_to_db environments
            { env with deleted_at := prev_env.deleted_at }
            newContainerId latest_tag
          (.ok saved.2, st3, saved.1)
        else
          (.engineError, duplicateRollback st3, environments)

/-- A source record that has been activated (status `"running"`). -/
def sampleSourceEnv : Env :=
  { name := "orig", image := "img", id := "src1", status := "running",
    command := "", comfyui_path := "/h", duplicate := none,
    folderIds := [], deleted_at := none }

/-- The request payload for the duplicate. -/
def sampleDupRequest : Env :=
  { name := "copy1", image := "", id := "", status := "",
    command := "", comfyui_path := "/h", duplicate := none,
    folderIds := [], deleted_at := none }

/-- C1: a duplication run in which an older `latest` image (identity `0`)
existed and was retagged as the temp backup, and container creation fails
with an engine error.  The code removes the temp backup immediately after
the commit succeeds, so the rollback handler finds no backup: the final
state has *neither* a `latest` nor a `temp` tag — the previous `latest` is
not restored, contradicting the rollback the handler itself announces. -/
theorem duplicate_rollback_finds_no_backup :
    (duplicate_environment [sampleSourceEnv] "src1" sampleDupRequest
        true false "c9" ⟨[(latest_tag, 0)], 1⟩).1 = .engineError ∧
    getImage (duplicate_environment [sampleSourceEnv] "src1" sampleDupRequest
        true false "c9" ⟨[(latest_tag, 0)], 1⟩).2.1 latest_tag = none ∧
    getImage (duplicate_environment [sampleSourceEnv] "src1" sampleDupRequest
        true false "c9" ⟨[(latest_tag, 0)], 1⟩).2.1 temp_tag = none := by
  refine ⟨?_, ?_, ?_⟩ <;> decide

/-- The record `duplicate_environment` actually persists for the sample
duplicate: note `duplicate := none` — no flag is written. -/
def sampleDupSaved : Env :=
  { name := "copy1", image := latest_tag, status := "created", id := "c9",
    command := "", comfyui_path := "/h", duplicate := none,
    folderIds := [], deleted_at := none }

/-- C7 counterexample: duplicating a `"running"` source succeeds, but the
newly persisted record does *not* carry `is_duplicate = true` —
`save_environment_to_db` in `src/app.py` writes no duplicate flag at all. -/
theorem duplicate_missing_flag_counterexample :
    (duplicate_environment [sampleSourceEnv] "src1" sampleDupRequest
        true true "c9" ⟨[(latest_tag, 0)], 1⟩).1 = .ok sampleDupSaved ∧
    sampleDupSaved.duplicate = none := by
  constructor
  · decide
  · decide

/-- C7 (amended): duplication of a source whose status is `"created"` fails
with a validation error; for a `"running"` or `"stopped"` source (with the
container present and creation succeeding) it succeeds — but the record
persisted by `src/app.py` carries no duplicate flag at all
(`duplicate = none`), and `environment_manager.save_environment_to_db`
would store `duplicate = is_duplicate`, i.e. `true` only when its caller
passes `is_duplicate = True` (no caller in the source does). -/
theorem duplicate_status_gate_and_flag (environments : List Env)
    (cid : String) (env : Env) (containerExists createOk : Bool)
    (ncid : String) (st : ImgState) (prev : Env)
    (hfind : environments.find? (fun e => e.id == cid) = some prev)
    (hregex : nameRegexMatches env.name = true)
    (hlen : env.name.length ≤ 128)
    (hcol : environments.any (fun e => e.name == env.name) = false) :
    (prev.status = "created" →
      (duplicate_environment environments cid env containerExists createOk
          ncid st).1 = .validationError "activate before duplicating") ∧
    ((prev.status = "running" ∨ prev.status = "stopped") →
      containerExists = true → createOk = true →
      (duplicate_environment environments cid env containerExists createOk
          ncid st).1 =
        .ok { name := env.name, image := latest_tag, status := "created",
              id := ncid, command := env.command,
              comfyui_path := env.comfyui_path, duplicate := none,
              folderIds := [], deleted_at := prev.deleted_at }) ∧
    (∀ (envs2 : List Env) (e : Env) (c i : String) (d : Bool),
      ((em_save_environment_to_db envs2 e c i d).2).duplicate = some d) := by
  have h2 : ¬(env.name.length > 128) := by omega
  refine ⟨?_, ?_, ?_⟩
  · intro hst
    unfold duplicate_environment
    rw [hfind]
    simp [hregex, hcol, hst, h2]
  · intro hst hce hco
    have hst' : (prev.status == "created") = false := by
      rcases hst with h | h <;> rw [h] <;> decide
    subst hce hco
    unfold duplicate_environment
    rw [hfind]
    simp [hregex, hcol, hst', h2, app_save_environment_to_db]
  · intro envs2 e c i d
    rfl

/-- Witness for `duplicate_status_gate_and_flag` at the sample source and
request. -/
theorem duplicate_status_gate_and_flag_witness :
    (sampleSourceEnv.status = "created" →
      (duplicate_environment [sampleSourceEnv] "src1" sampleDupRequest
          true true "c9" ⟨[(latest_tag, 0)], 1⟩).1 =
        .validationError "activate before duplicating") ∧
    ((sampleSourceEnv.status = "running" ∨
        sampleSourceEnv.status = "stopped") →
      true = true → true = true →
      (duplicate_environment [sampleSourceEnv] "src1" sampleDupRequest
          true true "c9" ⟨[(latest_tag, 0)], 1⟩).1 =
        .ok { name := sampleDupRequest.name, image := latest_tag,
              status := "created", id := "c9",
              command := sampleDupRequest.command,
              comfyui_path := sampleDupRequest.comfyui_path,
              duplicate := none, folderIds := [],
              deleted_at := sampleSourceEnv.deleted_at }) ∧
    (∀ (envs2 : List Env) (e : Env) (c i : String) (d : Bool),
      ((em_save_environment_to_db envs2 e c i d).2).duplicate = some d) :=
  duplicate_status_gate_and_flag [sampleSourceEnv] "src1" sampleDupRequest
    true true "c9" ⟨[(latest_tag, 0)], 1⟩ sampleSourceEnv
    (by decide) (by decide) (by decide) (by decide)
